/-
Verification of the IndexChat retrieval core against its design specification.

The development shallowly embeds the JavaScript source of the repository:
  * the embedding codec (`deserializeEmbedding`, and the inline buffer-write
    serialization loop of `searchPdfs`) at the level of 32-bit little-endian
    patterns and byte lists;
  * the similarity engine (`cosineSimilarity`), with JavaScript numbers
    modelled as `Option ℚ` (`none` plays the role of NaN, produced by
    arithmetic on an out-of-bounds index), and `Math.sqrt` as an explicit
    function parameter;
  * the per-modality search (`searchTable` and the `searchPdfs` variants),
    with the SQLite row set modelled as a list of chunks carrying their
    already-deserialized embedding vectors, and the optional `sqlite-vss`
    path modelled as an `Option` parameter (`none` models "extension absent
    or the indexed query raised/returned nothing");
  * the GPT tool-calling loop of `server.js` (`processQueryFuel`), with the
    chat model and the retrieval function as oracle parameters and an
    explicit fuel counting the EXECUTING_TOOLS rounds.
-/
import Mathlib

namespace IndexChat

/-! ### Embedding codec

`serializeEmbedding` models the inline loop
`const buffer = Buffer.alloc(dim * 4); ... buffer.writeFloatLE(v[i], i * 4)`:
component `i` occupies bytes `4*i .. 4*i+3`, little endian, and the tail of
the allocated buffer that is never written stays zero.  A single-precision
value is represented by its 32-bit pattern (a `Nat` below `2^32`); this is
exact because `writeFloatLE` stores precisely the 32-bit pattern of the
(already rounded) single-precision value and `readFloatLE` recovers it. -/

inductive EmbeddingError where
  | MalformedEmbedding
deriving DecidableEq

/-- The four little-endian bytes of a 32-bit pattern, as written by
`buffer.writeFloatLE`. -/
def toBytesLE (x : Nat) : List Nat :=
  [x % 256, x / 256 % 256, x / 65536 % 256, x / 16777216 % 256]

/-- Recombination of four little-endian bytes into a 32-bit pattern, as read
by `buffer.readFloatLE`. -/
def readFloatLEbits (b0 b1 b2 b3 : Nat) : Nat :=
  b0 + 256 * b1 + 65536 * b2 + 16777216 * b3

/-- Model of the serialization loop of `searchPdfs` / `searchTable`
(`Buffer.alloc(dim * 4)` followed by `writeFloatLE` at offset `i * 4` for
each component, in order). -/
def serializeEmbedding (dim : Nat) (v : List Nat) : List Nat :=
  match v with
  | [] => List.replicate (4 * dim) 0
  | x :: xs => toBytesLE x ++ serializeEmbedding (dim - 1) xs

/-- Model of `deserializeEmbedding(buffer)`: read 4-byte little-endian
groups from the front.  When between one and three bytes remain, the final
`buffer.readFloatLE(i)` is out of range and Node raises; the raised error is
the codec's malformed-input failure. -/
def deserializeEmbedding : List Nat → Except EmbeddingError (List Nat)
  | [] => .ok []
  | b0 :: b1 :: b2 :: b3 :: rest =>
    (deserializeEmbedding rest).map (fun fs => readFloatLEbits b0 b1 b2 b3 :: fs)
  | _ => .error .MalformedEmbedding

/-! ### Similarity engine

JavaScript numbers are modelled as `Option ℚ`: `none` stands for NaN (and
other non-finite outcomes), which arises exactly when the loop of
`cosineSimilarity` indexes `vecB` out of bounds (`vecB[i]` is `undefined`
and any arithmetic on it yields NaN).  `Math.sqrt` is an explicit function
parameter of every definition that uses it. -/

def qAdd : Option ℚ → Option ℚ → Option ℚ
  | some a, some b => some (a + b)
  | _, _ => none

def qMul : Option ℚ → Option ℚ → Option ℚ
  | some a, some b => some (a * b)
  | _, _ => none

/-- Division; a zero divisor yields a non-finite JavaScript number, which the
model collapses into `none` as well. -/
def qDiv : Option ℚ → Option ℚ → Option ℚ
  | some a, some b => if b = 0 then none else some (a / b)
  | _, _ => none

/-- Model of `cosineSimilarity(vecA, vecB)`: one pass for `i` below
`vecA.length` accumulating `dotProduct`, `normA` and `normB` (rendered as
three folds over the same index range), then the `normA === 0 || normB === 0`
guard, then `dotProduct / (Math.sqrt(normA) * Math.sqrt(normB))`. -/
def cosineSimilarity (sqrt : ℚ → ℚ) (vecA vecB : List ℚ) : Option ℚ :=
  let dotProduct := (List.range vecA.length).foldl
    (fun acc i => qAdd acc (qMul vecA[i]? vecB[i]?)) (some 0)
  let normA := (List.range vecA.length).foldl
    (fun acc i => qAdd acc (qMul vecA[i]? vecA[i]?)) (some 0)
  let normB := (List.range vecA.length).foldl
    (fun acc i => qAdd acc (qMul vecB[i]? vecB[i]?)) (some 0)
  if normA = some 0 ∨ normB = some 0 then some 0
  else qDiv dotProduct (qMul (normA.map sqrt) (normB.map sqrt))

/-! ### Chunk store and per-modality search -/

/-- A row of the `documents` table.  The `embedding` field holds the vector
as deserialized from the stored BLOB (the byte-level codec is verified
separately above); its length is the number of stored 4-byte floats. -/
structure Chunk where
  id : Nat
  file_name : String
  content_type : String
  chunk_text : String
  embedding : List ℚ
  metadata : String
deriving DecidableEq

/-- A result row of the brute-force fallback of `searchTable`: the selected
columns plus the computed `similarity`. -/
structure SearchRow where
  id : Nat
  file_name : String
  content_type : String
  chunk_text : String
  metadata : String
  similarity : Option ℚ
deriving DecidableEq

/-- The numeric value a row's similarity contributes to the sort comparator.
`getD 0` totalizes the NaN case, on which the JavaScript comparator is
unspecified; every theorem below that depends on the ordering works with
rows whose similarity is an actual value. -/
def simVal (r : SearchRow) : ℚ := r.similarity.getD 0

/-- The sort relation realised by `sims.sort((a, b) => b.similarity -
a.similarity)`: `a` may precede `b` when `a`'s similarity is at least `b`'s.
`Array.prototype.sort` is stable (ES2019), so with a consistent comparator
its output is the unique stable descending reordering, which is what
`List.insertionSort` with this relation computes. -/
def jsSimCompare (a b : SearchRow) : Prop := simVal b ≤ simVal a

instance : DecidableRel jsSimCompare :=
  fun a b => inferInstanceAs (Decidable (simVal b ≤ simVal a))

instance : IsTotal SearchRow jsSimCompare :=
  ⟨fun a b => le_total (simVal b) (simVal a)⟩

instance : IsTrans SearchRow jsSimCompare :=
  ⟨fun _ _ _ h1 h2 => le_trans h2 h1⟩

/-- Modelled from the spec: the ranking relation "sorted descending by
rank_score (ties broken by smaller chunk_id for determinism)". -/
def specLE (a b : SearchRow) : Prop :=
  simVal b < simVal a ∨ (simVal a = simVal b ∧ a.id ≤ b.id)

instance : DecidableRel specLE :=
  fun a b =>
    inferInstanceAs (Decidable (simVal b < simVal a ∨ (simVal a = simVal b ∧ a.id ≤ b.id)))

instance : IsTotal SearchRow specLE := by
  constructor
  intro a b
  rcases lt_trichotomy (simVal a) (simVal b) with h | h | h
  · exact Or.inr (Or.inl h)
  · rcases Nat.le_total a.id b.id with hid | hid
    · exact Or.inl (Or.inr ⟨h, hid⟩)
    · exact Or.inr (Or.inr ⟨h.symm, hid⟩)
  · exact Or.inl (Or.inl h)

instance : IsTrans SearchRow specLE := by
  constructor
  intro a b c h1 h2
  rcases h1 with h1 | ⟨h1e, h1i⟩
  · rcases h2 with h2 | ⟨h2e, _⟩
    · exact Or.inl (lt_trans h2 h1)
    · exact Or.inl (h2e ▸ h1)
  · rcases h2 with h2 | ⟨h2e, h2i⟩
    · exact Or.inl (lt_of_lt_of_eq h2 h1e.symm)
    · exact Or.inr ⟨h1e.trans h2e, le_trans h1i h2i⟩

/-- The row built by the brute-force fallback for one document (the object
literal inside `docs.map` in `searchTable`). -/
def scoreChunk (sqrt : ℚ → ℚ) (q : List ℚ) (doc : Chunk) : SearchRow :=
  { id := doc.id, file_name := doc.file_name, content_type := doc.content_type,
    chunk_text := doc.chunk_text, metadata := doc.metadata,
    similarity := cosineSimilarity sqrt q doc.embedding }

/-- Model of `searchTable(db, tableName, queryEmbedding, type, topK, dim)`.
`vss` is the outcome of the indexed (`sqlite-vss`) attempt: `none` when the
extension is unavailable or the query raised (the `catch` branch), otherwise
the rows it produced; the code keeps them only when non-empty.  The
brute-force fallback selects the rows of the given `content_type`, scores
each one, drops a row whose deserialized embedding length differs from `dim`
(`if (emb.length !== dim) return null` followed by `.filter(r => r !==
null)`), sorts by descending similarity and keeps the first `topK`. -/
def searchTable (vss : Option (List SearchRow)) (sqrt : ℚ → ℚ) (store : List Chunk)
    (type : String) (queryEmbedding : Option (List ℚ)) (topK dim : Nat) : List SearchRow :=
  match queryEmbedding with
  | none => []
  | some q =>
    match vss with
    | some (r :: rs) => r :: rs
    | _ =>
      let docs := store.filter (fun c => c.content_type == type)
      let sims := docs.filterMap (fun doc =>
        if doc.embedding.length ≠ dim then none
        else some (scoreChunk sqrt q doc))
      (sims.insertionSort jsSimCompare).take topK

def TEXT_EMBED_DIM : Nat := 3072
def CLIP_DIM : Nat := 512
def CLAP_DIM : Nat := 512

/-- Model of the multi-modal `searchPdfs(query, topK = 5)` (the variant built
on `searchTable`).  `dbExists` models `fs.existsSync(DB_PATH)`; `textEmb` is
the mandatory OpenAI query embedding, `clipEmb`/`clapEmb` the optional
CLIP/CLAP query embeddings (`none` when the provider returned null); the
three `vss` parameters are the per-modality indexed-search outcomes. -/
def searchPdfsMulti (dbExists : Bool) (sqrt : ℚ → ℚ) (store : List Chunk)
    (textEmb : List ℚ) (clipEmb clapEmb : Option (List ℚ))
    (vssText vssImage vssAudio : Option (List SearchRow)) (topK : Nat) : List SearchRow :=
  if !dbExists then []
  else
    let textRes := searchTable vssText sqrt store "text" (some textEmb) topK TEXT_EMBED_DIM
    let imageRes :=
      match clipEmb with
      | none => []
      | some e => searchTable vssImage sqrt store "image" (some e) topK CLIP_DIM
    let audioRes :=
      match clapEmb with
      | none => []
      | some e => searchTable vssAudio sqrt store "audio" (some e) topK CLAP_DIM
    (textRes ++ imageRes ++ audioRes).take (topK * 3)

/-- Model of the legacy `searchPdfs(query, topK = 5)` variant that carries
the comment "Check if database exists" but performs no such check: it opens
the database unconditionally, so `better-sqlite3` in read-only mode raises
when the file is absent.  The brute-force fallback scans all documents (no
modality filter, no dimension check) and strips the `similarity` field from
the returned rows. -/
def searchPdfsLegacy (dbExists : Bool) (sqrt : ℚ → ℚ) (store : List Chunk)
    (queryEmbedding : List ℚ) (vss : Option (List SearchRow)) (topK : Nat) :
    Except String (List SearchRow) :=
  if !dbExists then .error ("unable to open database file")
  else
    .ok (match vss with
      | some (r :: rs) => r :: rs
      | _ =>
        let sims := store.map (fun doc =>
          { id := doc.id, file_name := doc.file_name, content_type := doc.content_type,
            chunk_text := doc.chunk_text, metadata := doc.metadata,
            similarity := cosineSimilarity sqrt queryEmbedding doc.embedding : SearchRow })
        ((sims.insertionSort jsSimCompare).take topK).map
          (fun r => { r with similarity := none }))

/-! ### Tool-calling loop (`processQuery` in `server.js`)

The chat model is an oracle `List Message → ModelResponse`; the retrieval
function is an oracle `String → Nat → Except String (List SearchRow)`
(`Except.error` models a thrown search error, caught by the loop).  The
fuel argument counts the EXECUTING_TOOLS rounds the run may still take: the
source loop `while (assistantMessage.tool_calls && ...)` has no such bound,
so a run is modelled by the family of its finite-fuel approximations, and
"the loop terminates" means some finite fuel suffices. -/

structure ToolCall where
  id : String
  name : String
  query : String
  top_k : Option Nat
deriving DecidableEq

structure ModelResponse where
  content : String
  toolCalls : List ToolCall
deriving DecidableEq

structure Message where
  role : String
  content : String
deriving DecidableEq

structure Source where
  id : Nat
  file_name : String
deriving DecidableEq

def toSource (r : SearchRow) : Source := { id := r.id, file_name := r.file_name }

/-- Model of the source-tracking loop
`for (const result of results) { if (!sources.find((s) => s.id === result.id)) sources.push(...) }`. -/
def trackSources (sources : List Source) (results : List SearchRow) : List Source :=
  results.foldl
    (fun acc r => if acc.any (fun s => s.id == r.id) then acc else acc ++ [toSource r])
    sources

/-- JavaScript `s || fallback` on strings (the empty string is falsy). -/
def jsOrString (s fallback : String) : String := if s = "" then fallback else s

/-- One entry of `formattedResults`. -/
def formatResult (i : Nat) (r : SearchRow) : String :=
  "[" ++ toString (i + 1) ++ "] File: " ++ r.file_name ++ " (Type: "
    ++ jsOrString r.content_type ("text") ++ ")\n" ++ r.chunk_text

def formatResults (results : List SearchRow) : String :=
  String.intercalate ("\n\n---\n\n") (results.enum.map (fun p => formatResult p.1 p.2))

/-- The tool message content (`toolResponse` in the source). -/
def toolResponseText (results : List SearchRow) : String :=
  if results.length > 0 then
    "Found " ++ toString results.length ++ " relevant chunks:\n\n" ++ formatResults results
  else "No relevant documents found for this query."

def SYSTEM_PROMPT : String :=
  "You are a helpful assistant that answers questions based on the user's PDF documents.\nWhen answering questions:\n1. ALWAYS use the search_pdfs tool to find relevant information from the documents\n2. Base your answers on the retrieved document chunks\n3. ALWAYS cite your sources by mentioning which document (file name) the information came from\n4. If the documents don't contain relevant information, say so clearly\n5. Be concise but thorough in your answers"

/-- Model of `const topK = args.top_k || 5`: absent (`undefined`/`null`) and
the falsy number `0` both select the default `5`. -/
def effectiveTopK (x : Option Nat) : Nat :=
  match x with
  | none => 5
  | some t => if t = 0 then 5 else t

structure LoopState where
  messages : List Message
  sources : List Source
deriving DecidableEq

/-- Model of the body of `for (const toolCall of assistantMessage.tool_calls)`:
a call not named `search_pdfs` is skipped; otherwise the search runs with
`args.top_k || 5`, a success appends the formatted tool message and tracks
the sources, and a thrown error is caught and appended as an error tool
message instead. -/
def execToolCall (search : String → Nat → Except String (List SearchRow))
    (st : LoopState) (tc : ToolCall) : LoopState :=
  if tc.name ≠ "search_pdfs" then st
  else
    match search tc.query (effectiveTopK tc.top_k) with
    | .ok results =>
      { messages := st.messages ++ [{ role := "tool", content := toolResponseText results }],
        sources := trackSources st.sources results }
    | .error e =>
      { messages := st.messages ++ [{ role := "tool", content := "Error searching documents: " ++ e }],
        sources := st.sources }

/-- Model of the `while (assistantMessage.tool_calls && assistantMessage.tool_calls.length > 0)`
loop: given the latest model response, either finish with its content, or
(consuming one unit of fuel) append the assistant message, execute every
tool call of the batch in order, ask the model again and continue. -/
def runLoop (chat : List Message → ModelResponse)
    (search : String → Nat → Except String (List SearchRow)) :
    Nat → ModelResponse → LoopState → Option (String × List Source)
  | 0, resp, st =>
    if resp.toolCalls.isEmpty then some (resp.content, st.sources) else none
  | n + 1, resp, st =>
    if resp.toolCalls.isEmpty then some (resp.content, st.sources)
    else
      let st1 : LoopState :=
        { st with messages := st.messages ++ [{ role := "assistant", content := resp.content }] }
      let st2 := resp.toolCalls.foldl (execToolCall search) st1
      runLoop chat search n (chat st2.messages) st2

def initMessages (q : String) : List Message :=
  [{ role := "system", content := SYSTEM_PROMPT }, { role := "user", content := q }]

/-- Model of `processQuery(query)`, indexed by the number of
EXECUTING_TOOLS rounds the run is allowed. -/
def processQueryFuel (chat : List Message → ModelResponse)
    (search : String → Nat → Except String (List SearchRow))
    (q : String) (fuel : Nat) : Option (String × List Source) :=
  runLoop chat search fuel (chat (initMessages q)) { messages := initMessages q, sources := [] }

/-- A pathological model that requests a tool call in every response. -/
def alwaysToolChat : List Message → ModelResponse :=
  fun _ =>
    { content := "",
      toolCalls := [{ id := "call_1", name := "search_pdfs", query := "anything", top_k := none }] }

/-- A retrieval stub that always succeeds with no results. -/
def nullSearch : String → Nat → Except String (List SearchRow) := fun _ _ => .ok []

/-- Modelled from the spec: deduplication keeping, for each `chunk_id`, the
first occurrence, in first-seen order ("the final sources list contains each
chunk_id exactly once, in the order each chunk_id was first seen"). -/
def firstSeenDedup : List SearchRow → List SearchRow
  | [] => []
  | r :: rs => r :: firstSeenDedup (rs.filter (fun x => x.id != r.id))
termination_by l => l.length
decreasing_by
  simp only [List.length_cons]
  exact Nat.lt_succ_of_le (List.length_filter_le _ _)

/-- Modelled from the spec: brute-force search over the chunks of one
modality "returns the exact top-K by cosine similarity, descending, with
deterministic tie-break by ascending chunk_id" — score every chunk of the
modality, sort by the ranking relation `specLE`, keep the first `topK`. -/
def specSearch (sqrt : ℚ → ℚ) (store : List Chunk) (type : String) (q : List ℚ)
    (topK : Nat) : List SearchRow :=
  (((store.filter (fun c => c.content_type == type)).map (scoreChunk sqrt q)).insertionSort
    specLE).take topK

/-- A small well-formed store (ids ascending, one-component embeddings; the
first two chunks tie at similarity 0, the third scores 1). -/
def demoStore : List Chunk :=
  [ { id := 1, file_name := "a.pdf", content_type := "text", chunk_text := "alpha",
      embedding := [0], metadata := "" },
    { id := 2, file_name := "b.pdf", content_type := "text", chunk_text := "beta",
      embedding := [0], metadata := "" },
    { id := 3, file_name := "c.pdf", content_type := "text", chunk_text := "gamma",
      embedding := [1], metadata := "" } ]

/-! ### Theorems -/

theorem specLE_trans_lemma {a b c : SearchRow} (h1 : specLE a b) (h2 : specLE b c) :
    specLE a c := IsTrans.trans (r := specLE) a b c h1 h2

theorem trackSources_append (acc : List Source) (xs ys : List SearchRow) :
    trackSources acc (xs ++ ys) = trackSources (trackSources acc xs) ys := by
  simp [trackSources]

theorem trackSources_cons (acc : List Source) (r : SearchRow) (rs : List SearchRow) :
    trackSources acc (r :: rs)
      = trackSources (if acc.any (fun s => s.id == r.id) then acc else acc ++ [toSource r])
          rs := rfl

theorem trackSources_eq_dedup (rs : List SearchRow) : ∀ acc : List Source,
    trackSources acc rs
      = acc ++ (firstSeenDedup (rs.filter
            (fun r => !acc.any (fun s => s.id == r.id)))).map toSource := by
  induction rs with
  | nil => intro acc; simp [trackSources, firstSeenDedup]
  | cons r rs ih =>
    intro acc
    by_cases h : acc.any (fun s => s.id == r.id) = true
    · have hstep : trackSources acc (r :: rs) = trackSources acc rs := by
        rw [trackSources_cons, if_pos h]
      have hf : (r :: rs).filter (fun x => !acc.any (fun s => s.id == x.id))
          = rs.filter (fun x => !acc.any (fun s => s.id == x.id)) := by
        simp only [List.filter_cons, h, Bool.not_true]
        simp
      rw [hstep, hf, ih acc]
    · have h' : acc.any (fun s => s.id == r.id) = false := Bool.eq_false_iff.mpr h
      have hstep : trackSources acc (r :: rs) = trackSources (acc ++ [toSource r]) rs := by
        rw [trackSources_cons, if_neg h]
      have hf : (r :: rs).filter (fun x => !acc.any (fun s => s.id == x.id))
          = r :: rs.filter (fun x => !acc.any (fun s => s.id == x.id)) := by
        simp only [List.filter_cons, h', Bool.not_false, if_true]
      rw [hstep, ih (acc ++ [toSource r]), hf, firstSeenDedup]
      have hpp : rs.filter (fun x => !(acc ++ [toSource r]).any (fun s => s.id == x.id))
          = (rs.filter (fun x => !acc.any (fun s => s.id == x.id))).filter
              (fun x => x.id != r.id) := by
        rw [List.filter_filter]
        apply List.filter_congr
        intro x _
        simp only [List.any_append, List.any_cons, List.any_nil, Bool.or_false, Bool.not_or,
          toSource]
        by_cases hxr : x.id = r.id
        · have e1 : (r.id == x.id) = true := beq_iff_eq.mpr hxr.symm
          have e2 : (x.id != r.id) = false := by simp [hxr]
          rw [e1, e2]
          simp
        · have e1 : (r.id == x.id) = false := beq_eq_false_iff_ne.mpr (Ne.symm hxr)
          have e2 : (x.id != r.id) = true := by simp [bne_iff_ne]; exact hxr
          rw [e1, e2]
          simp
      rw [hpp]
      simp

theorem mem_of_mem_firstSeenDedup (rs : List SearchRow) (x : SearchRow)
    (h : x ∈ firstSeenDedup rs) : x ∈ rs := by
  match rs with
  | [] => simp [firstSeenDedup] at h
  | r :: rs' =>
    rw [firstSeenDedup] at h
    rcases List.mem_cons.mp h with h1 | h2
    · exact h1 ▸ List.mem_cons_self r rs'
    · have hmem := mem_of_mem_firstSeenDedup _ x h2
      exact List.mem_cons_of_mem r (List.mem_of_mem_filter hmem)
termination_by rs.length
decreasing_by
  simp only [List.length_cons]
  exact Nat.lt_succ_of_le (List.length_filter_le _ _)

theorem nodup_ids_firstSeenDedup (rs : List SearchRow) :
    ((firstSeenDedup rs).map SearchRow.id).Nodup := by
  match rs with
  | [] => simp [firstSeenDedup]
  | r :: rs' =>
    rw [firstSeenDedup]
    simp only [List.map_cons, List.nodup_cons]
    constructor
    · intro hmem
      rcases List.mem_map.mp hmem with ⟨y, hy, hidy⟩
      have hyf := mem_of_mem_firstSeenDedup _ _ hy
      have hyp := List.of_mem_filter hyf
      simp only [bne_iff_ne, ne_eq] at hyp
      exact hyp hidy
    · exact nodup_ids_firstSeenDedup (rs'.filter (fun x => x.id != r.id))
termination_by rs.length
decreasing_by
  simp only [List.length_cons]
  exact Nat.lt_succ_of_le (List.length_filter_le _ _)

/-- C6: across any sequence of tool invocations (each contributing a list of
results, possibly with overlapping `chunk_id`s), the source-tracking loop
yields exactly the first occurrence of each `chunk_id`, in first-seen order,
and the resulting id list contains no duplicates. -/
theorem C6_sources_dedup_first_seen (batches : List (List SearchRow)) :
    batches.foldl trackSources [] = (firstSeenDedup batches.flatten).map toSource
    ∧ ((batches.foldl trackSources []).map Source.id).Nodup := by
  have hflat : ∀ (bs : List (List SearchRow)) (acc : List Source),
      bs.foldl trackSources acc = trackSources acc bs.flatten := by
    intro bs
    induction bs with
    | nil => intro acc; simp [trackSources]
    | cons b bs ih =>
      intro acc
      simp only [List.foldl_cons, List.flatten_cons, ih, trackSources_append]
  have h1 : batches.foldl trackSources [] = (firstSeenDedup batches.flatten).map toSource := by
    rw [hflat, trackSources_eq_dedup]
    simp only [List.any_nil, Bool.not_false, List.filter_true, List.nil_append]
  refine ⟨h1, ?_⟩
  rw [h1, List.map_map]
  exact nodup_ids_firstSeenDedup _

theorem runLoop_always_tool_none (chat : List Message → ModelResponse)
    (search : String → Nat → Except String (List SearchRow))
    (hchat : ∀ msgs, (chat msgs).toolCalls ≠ []) :
    ∀ (fuel : Nat) (resp : ModelResponse) (st : LoopState),
      resp.toolCalls ≠ [] → runLoop chat search fuel resp st = none := by
  intro fuel
  induction fuel with
  | zero =>
    intro resp st h
    cases hr : resp.toolCalls with
    | nil => exact absurd hr h
    | cons a l => simp [runLoop, hr]
  | succ n ih =>
    intro resp st h
    cases hr : resp.toolCalls with
    | nil => exact absurd hr h
    | cons a l =>
      simp only [runLoop, hr, List.isEmpty_cons, Bool.false_eq_true, if_false]
      exact ih _ _ (hchat _)

/-- C1 (claim is wrong about the code): the tool-calling loop of
`processQuery` imposes no maximum number of EXECUTING_TOOLS rounds.  With a
model that requests a tool call in every response, no finite number of
rounds ever yields an answer — the loop iterates indefinitely, refuting the
claim that it terminates within a configured maximum. -/
theorem C1_no_round_bound_counterexample :
    ¬ ∃ n, (processQueryFuel alwaysToolChat nullSearch "q" n).isSome := by
  rintro ⟨n, hn⟩
  rw [processQueryFuel,
    runLoop_always_tool_none alwaysToolChat nullSearch (fun _ => by simp [alwaysToolChat]) n _ _
      (by simp [alwaysToolChat])] at hn
  simp at hn

/-- C1 amended: the loop has no configured round maximum; it terminates
exactly when the model stops requesting tool calls.  A model that always
requests a tool call never produces an answer, for any finite round budget;
a model whose response contains no tool calls ends the loop at once with
that response's content as the answer (and, with no tool rounds executed,
an empty source list). -/
theorem C1_terminates_iff_model_stops :
    (∀ n, processQueryFuel alwaysToolChat nullSearch "q" n = none)
    ∧ (∀ (chat : List Message → ModelResponse)
        (search : String → Nat → Except String (List SearchRow)) (q : String),
        (chat (initMessages q)).toolCalls = [] →
          processQueryFuel chat search q 0 = some ((chat (initMessages q)).content, [])) := by
  constructor
  · intro n
    exact runLoop_always_tool_none alwaysToolChat nullSearch (fun _ => by simp [alwaysToolChat])
      n _ _ (by simp [alwaysToolChat])
  · intro chat search q h
    simp [processQueryFuel, runLoop, h]

theorem C1_terminates_iff_model_stops_witness :
    processQueryFuel alwaysToolChat nullSearch "q" 3 = none
    ∧ processQueryFuel (fun _ => { content := "done", toolCalls := [] }) nullSearch "hi" 0
        = some ("done", []) :=
  ⟨C1_terminates_iff_model_stops.1 3,
    C1_terminates_iff_model_stops.2 (fun _ => { content := "done", toolCalls := [] })
      nullSearch "hi" rfl⟩

theorem sorted_specLE_orderedInsert (x : SearchRow) (l : List SearchRow)
    (hl : l.Sorted specLE) (hid : ∀ y ∈ l, x.id < y.id) :
    (List.orderedInsert jsSimCompare x l).Sorted specLE := by
  induction l with
  | nil => simp [List.orderedInsert, List.sorted_singleton]
  | cons y ys ih =>
    rcases List.sorted_cons.mp hl with ⟨hy, hys⟩
    by_cases hxy : jsSimCompare x y
    · rw [List.orderedInsert, if_pos hxy]
      have hxyLE : specLE x y := by
        rcases lt_or_eq_of_le hxy with hlt | heq
        · exact Or.inl hlt
        · exact Or.inr ⟨heq.symm, Nat.le_of_lt (hid y (by simp))⟩
      refine List.sorted_cons.mpr ⟨?_, hl⟩
      intro b hb
      rcases List.mem_cons.mp hb with rfl | hb
      · exact hxyLE
      · exact specLE_trans_lemma hxyLE (hy b hb)
    · rw [List.orderedInsert, if_neg hxy]
      refine List.sorted_cons.mpr
        ⟨?_, ih hys (fun z hz => hid z (List.mem_cons_of_mem y hz))⟩
      intro b hb
      rcases (List.mem_orderedInsert jsSimCompare).mp hb with rfl | hb
      · exact Or.inl (not_le.mp hxy)
      · exact hy b hb

theorem sorted_specLE_insertionSort (l : List SearchRow)
    (hid : l.Pairwise (fun a b => a.id < b.id)) :
    (List.insertionSort jsSimCompare l).Sorted specLE := by
  induction l with
  | nil => exact List.sorted_nil
  | cons x t ih =>
    rcases List.pairwise_cons.mp hid with ⟨hx, ht⟩
    rw [List.insertionSort]
    apply sorted_specLE_orderedInsert x _ (ih ht)
    intro y hy
    exact hx y (by simpa using hy)

theorem eq_of_perm_of_pairwise_asymm {α : Type} {R : α → α → Prop}
    (hA : ∀ a b, R a b → R b a → False) :
    ∀ (l₁ l₂ : List α), l₁.Perm l₂ → l₁.Pairwise R → l₂.Pairwise R → l₁ = l₂
  | [], l₂, hp, _, _ => (hp.symm.eq_nil).symm
  | a :: t₁, l₂, hp, h₁, h₂ => by
    cases l₂ with
    | nil => exact absurd hp.eq_nil (by simp)
    | cons b t₂ =>
      by_cases hab : a = b
      · subst hab
        have ht : t₁.Perm t₂ := hp.cons_inv
        rw [eq_of_perm_of_pairwise_asymm hA t₁ t₂ ht (List.pairwise_cons.mp h₁).2
          (List.pairwise_cons.mp h₂).2]
      · have ha2 : a ∈ t₂ := by
          have hm : a ∈ b :: t₂ := hp.mem_iff.mp (List.mem_cons_self a t₁)
          rcases List.mem_cons.mp hm with h | h
          · exact absurd h hab
          · exact h
        have hb1 : b ∈ t₁ := by
          have hm : b ∈ a :: t₁ := hp.symm.mem_iff.mp (List.mem_cons_self b t₂)
          rcases List.mem_cons.mp hm with h | h
          · exact absurd h.symm hab
          · exact h
        have hRab : R a b := (List.pairwise_cons.mp h₁).1 b hb1
        have hRba : R b a := (List.pairwise_cons.mp h₂).1 a ha2
        exact absurd hRab (fun h => hA a b h hRba)

theorem pairwise_strict_of_sorted (l : List SearchRow) (hs : l.Sorted specLE)
    (hne : l.Pairwise (fun a b => a.id ≠ b.id)) :
    l.Pairwise (fun a b => simVal b < simVal a ∨ (simVal a = simVal b ∧ a.id < b.id)) := by
  refine (hs.and hne).imp ?_
  rintro a b ⟨hle, hid⟩
  rcases hle with h | ⟨he, hi⟩
  · exact Or.inl h
  · exact Or.inr ⟨he, lt_of_le_of_ne hi hid⟩

theorem strict_rank_asymm (a b : SearchRow) :
    (simVal b < simVal a ∨ (simVal a = simVal b ∧ a.id < b.id)) →
    (simVal a < simVal b ∨ (simVal b = simVal a ∧ b.id < a.id)) → False := by
  rintro (h1 | ⟨e1, i1⟩) (h2 | ⟨e2, i2⟩)
  · exact lt_asymm h1 h2
  · rw [e2] at h1; exact lt_irrefl _ h1
  · rw [e1] at h2; exact lt_irrefl _ h2
  · omega

theorem filterMap_score (sqrt : ℚ → ℚ) (q : List ℚ) (dim : Nat) (docs : List Chunk)
    (hdim : ∀ c ∈ docs, c.embedding.length = dim) :
    docs.filterMap (fun doc =>
        if doc.embedding.length ≠ dim then none else some (scoreChunk sqrt q doc))
      = docs.map (scoreChunk sqrt q) := by
  induction docs with
  | nil => simp
  | cons d ds ih =>
    have hd := hdim d (by simp)
    have ih' := ih (fun c hc => hdim c (List.mem_cons_of_mem d hc))
    simp only [ne_eq, ite_not] at ih' ⊢
    simp [List.filterMap_cons, hd, ih']

/-- C4: on a well-formed store (chunk ids strictly ascending in table-scan
order, every chunk of the searched modality carrying an embedding of the
configured dimension), the brute-force fallback of `searchTable` returns
exactly the spec's result — the chunks of the modality ranked by descending
cosine similarity with ties broken by ascending chunk id, truncated to
`topK` — and its length is at most `topK`.  The code achieves the id
tie-break through the stability of `Array.prototype.sort` applied to the
id-ascending scan order. -/
theorem C4_fallback_exact_topk (sqrt : ℚ → ℚ) (store : List Chunk) (type : String)
    (q : List ℚ) (topK dim : Nat)
    (hid : store.Pairwise (fun a b => a.id < b.id))
    (hdim : ∀ c ∈ store, c.content_type = type → c.embedding.length = dim) :
    searchTable none sqrt store type (some q) topK dim = specSearch sqrt store type q topK
    ∧ (searchTable none sqrt store type (some q) topK dim).length ≤ topK := by
  have hred : searchTable none sqrt store type (some q) topK dim
      = (((store.filter (fun c => c.content_type == type)).filterMap (fun doc =>
            if doc.embedding.length ≠ dim then none
            else some (scoreChunk sqrt q doc))).insertionSort jsSimCompare).take topK := rfl
  have hdim' : ∀ c ∈ store.filter (fun c => c.content_type == type),
      c.embedding.length = dim := by
    intro c hc
    rcases List.mem_filter.mp hc with ⟨hmem, hpred⟩
    exact hdim c hmem (by simpa using hpred)
  have hfm := filterMap_score sqrt q dim _ hdim'
  have hids : ((store.filter (fun c => c.content_type == type)).map
      (scoreChunk sqrt q)).Pairwise (fun a b => a.id < b.id) := by
    rw [List.pairwise_map]
    exact List.Pairwise.sublist (List.filter_sublist _) hid
  have hne0 : ((store.filter (fun c => c.content_type == type)).map
      (scoreChunk sqrt q)).Pairwise (fun a b => a.id ≠ b.id) :=
    hids.imp (fun h => Nat.ne_of_lt h)
  have hperm1 := List.perm_insertionSort jsSimCompare
    ((store.filter (fun c => c.content_type == type)).map (scoreChunk sqrt q))
  have hperm2 := List.perm_insertionSort specLE
    ((store.filter (fun c => c.content_type == type)).map (scoreChunk sqrt q))
  have hne1 := hperm1.symm.pairwise hne0 (fun {a b} h => Ne.symm h)
  have hne2 := hperm2.symm.pairwise hne0 (fun {a b} h => Ne.symm h)
  have hsort1 := sorted_specLE_insertionSort _ hids
  have hsort2 := List.sorted_insertionSort specLE
    ((store.filter (fun c => c.content_type == type)).map (scoreChunk sqrt q))
  have heq := eq_of_perm_of_pairwise_asymm strict_rank_asymm _ _
    (hperm1.trans hperm2.symm)
    (pairwise_strict_of_sorted _ hsort1 hne1)
    (pairwise_strict_of_sorted _ hsort2 hne2)
  constructor
  · rw [hred, hfm, heq]
    rfl
  · rw [hred]
    exact List.length_take_le _ _

theorem C4_fallback_exact_topk_witness :
    searchTable none (fun x => x) demoStore "text" (some [1]) 5 1
      = specSearch (fun x => x) demoStore "text" [1] 5
    ∧ (searchTable none (fun x => x) demoStore "text" (some [1]) 5 1).length ≤ 5 :=
  C4_fallback_exact_topk (fun x => x) demoStore "text" [1] 5 1 (by decide) (by decide)

/-- C7: round-trip of the embedding codec.  Writing each component of a
vector of single-precision values (represented by their 32-bit patterns) as
a 4-byte little-endian group into the allocated buffer, then deserializing
the buffer, recovers the original vector — for every dimension, in
particular 1, 512 and 3072.  Precision already lost when rounding to single
precision at storage time is accounted for by working with the stored
32-bit values themselves. -/
theorem C7_serialize_deserialize_roundtrip (dim : Nat) (v : List Nat)
    (hlen : v.length = dim) (hval : ∀ x ∈ v, x < 4294967296) :
    deserializeEmbedding (serializeEmbedding dim v) = .ok v := by
  induction v generalizing dim with
  | nil =>
    simp only [List.length_nil] at hlen
    subst hlen
    simp [serializeEmbedding, deserializeEmbedding]
  | cons x xs ih =>
    have hx : x < 4294967296 := hval x (by simp)
    have hxs : ∀ y ∈ xs, y < 4294967296 := fun y hy => hval y (by simp [hy])
    have hlen' : xs.length = dim - 1 := by
      simp only [List.length_cons] at hlen
      omega
    have hrt : readFloatLEbits (x % 256) (x / 256 % 256) (x / 65536 % 256)
        (x / 16777216 % 256) = x := by
      unfold readFloatLEbits
      omega
    simp [serializeEmbedding, toBytesLE, deserializeEmbedding, ih (dim - 1) hlen' hxs, hrt,
      Except.map]

theorem C7_witness :
    ([1065353216, 0] : List Nat).length = 2
    ∧ deserializeEmbedding (serializeEmbedding 2 [1065353216, 0]) = .ok [1065353216, 0] :=
  ⟨rfl, C7_serialize_deserialize_roundtrip 2 [1065353216, 0] rfl (by decide)⟩

/-- C8: a byte buffer whose length is not a multiple of 4 makes
`deserializeEmbedding` fail with the malformed-embedding error (in the
source, the final 4-byte `readFloatLE` runs past the end of the buffer and
raises). -/
theorem C8_deserialize_malformed :
    ∀ (bs : List Nat), bs.length % 4 ≠ 0 →
      deserializeEmbedding bs = .error .MalformedEmbedding
  | [], h => by simp at h
  | [_], _ => rfl
  | [_, _], _ => rfl
  | [_, _, _], _ => rfl
  | b0 :: b1 :: b2 :: b3 :: rest, h => by
    have hr : rest.length % 4 ≠ 0 := by
      simp only [List.length_cons] at h ⊢
      omega
    simp [deserializeEmbedding, C8_deserialize_malformed rest hr, Except.map]

theorem C8_witness :
    ([7, 7] : List Nat).length % 4 ≠ 0
    ∧ deserializeEmbedding [7, 7] = .error .MalformedEmbedding :=
  ⟨by decide, C8_deserialize_malformed [7, 7] (by decide)⟩

/-- C3 (claim is wrong about the code): `cosineSimilarity` performs no
length check.  For the unequal-length inputs `vecA = [1]`, `vecB = [1, 1]`
the loop runs over the indices of `vecA` only, ignores the extra component
of `vecB`, and returns the ordinary number `1` — no `DimensionMismatch` (or
any other) error is raised.  `Math.sqrt` is any function fixing `1`, as the
real one does. -/
theorem C3_mismatched_length_returns_number (s : ℚ → ℚ) (hs : s 1 = 1) :
    cosineSimilarity s [1] [1, 1] = some 1 := by
  norm_num [cosineSimilarity, List.range_succ, qAdd, qMul, qDiv, hs]

theorem C3_witness : cosineSimilarity (fun x => x) [1] [1, 1] = some 1 :=
  C3_mismatched_length_returns_number (fun x => x) rfl

/-- C2 (claim is wrong about the code): in the brute-force fallback of
`searchTable` a stored chunk whose deserialized embedding length differs
from the configured dimension is silently dropped (`if (emb.length !== dim)
return null` followed by `.filter(r => r !== null)`), and no error of any
kind is raised: with dimension 1, the store below holds chunk 1 with a
1-component embedding and chunk 2 with a 2-component embedding, and the
search returns only chunk 1. -/
theorem C2_dimension_mismatch_silently_filtered :
    searchTable none (fun x => x)
      [ { id := 1, file_name := "a.pdf", content_type := "text", chunk_text := "t1",
          embedding := [1], metadata := "" },
        { id := 2, file_name := "b.pdf", content_type := "text", chunk_text := "t2",
          embedding := [1, 1], metadata := "" } ]
      ("text") (some [1]) 5 1
      = [ { id := 1, file_name := "a.pdf", content_type := "text", chunk_text := "t1",
            metadata := "", similarity := some 1 } ] := by
  norm_num [searchTable, scoreChunk, cosineSimilarity, List.range_succ,
    qAdd, qMul, qDiv, List.filter, List.filterMap, List.insertionSort, List.orderedInsert]

/-- C9 (claim is wrong about one variant of the code): the legacy
`searchPdfs` variant carries the comment "Check if database exists" but
opens the database unconditionally, so with the database file absent it
raises (read-only open of a missing file) instead of returning the empty
list. -/
theorem C9_missing_db_raises :
    searchPdfsLegacy false (fun x => x) [] [1] none 5
      = .error ("unable to open database file") := rfl

/-- C10: a `search_pdfs` tool invocation whose arguments carry `top_k = 0`
(or no `top_k` at all — `null`/`undefined`) is executed exactly as one
carrying `top_k = 5`, because `args.top_k || 5` treats the falsy `0` as
absent; in particular the effective top-k is 5, not 0. -/
theorem C10_topk_zero_defaults_to_five
    (search : String → Nat → Except String (List SearchRow))
    (st : LoopState) (cid q : String) :
    execToolCall search st { id := cid, name := "search_pdfs", query := q, top_k := some 0 }
      = execToolCall search st { id := cid, name := "search_pdfs", query := q, top_k := some 5 }
    ∧ execToolCall search st { id := cid, name := "search_pdfs", query := q, top_k := none }
      = execToolCall search st { id := cid, name := "search_pdfs", query := q, top_k := some 5 }
    ∧ effectiveTopK (some 0) = 5 ∧ effectiveTopK none = 5 := by
  refine ⟨?_, ?_, rfl, rfl⟩ <;> simp [execToolCall, effectiveTopK]

/-- C5: the multi-modal `searchPdfs` merges by concatenating the text,
image and audio result lists in that fixed order (an unavailable modality
contributing the empty list), preserving each modality's internal ranking,
and truncates the combined list to at most `topK * 3` entries. -/
theorem C5_merge_order_and_cap (sqrt : ℚ → ℚ) (store : List Chunk) (textEmb : List ℚ)
    (clipEmb clapEmb : Option (List ℚ)) (vssText vssImage vssAudio : Option (List SearchRow))
    (topK : Nat) :
    searchPdfsMulti true sqrt store textEmb clipEmb clapEmb vssText vssImage vssAudio topK
      = ((searchTable vssText sqrt store "text" (some textEmb) topK TEXT_EMBED_DIM)
          ++ (match clipEmb with
              | none => []
              | some e => searchTable vssImage sqrt store "image" (some e) topK CLIP_DIM)
          ++ (match clapEmb with
              | none => []
              | some e => searchTable vssAudio sqrt store "audio" (some e) topK CLAP_DIM)).take
          (topK * 3)
    ∧ (searchPdfsMulti true sqrt store textEmb clipEmb clapEmb vssText vssImage vssAudio
        topK).length ≤ topK * 3 := by
  constructor
  · rfl
  · rw [show searchPdfsMulti true sqrt store textEmb clipEmb clapEmb vssText vssImage vssAudio
          topK
        = ((searchTable vssText sqrt store "text" (some textEmb) topK TEXT_EMBED_DIM)
            ++ (match clipEmb with
                | none => []
                | some e => searchTable vssImage sqrt store "image" (some e) topK CLIP_DIM)
            ++ (match clapEmb with
                | none => []
                | some e => searchTable vssAudio sqrt store "audio" (some e) topK CLAP_DIM)).take
            (topK * 3) from rfl]
    exact List.length_take_le _ _

end IndexChat
